import Mathlib

/-!
Shallow embedding of the swapping/thrashing simulator core
(src/js/core/Page.js, Frame.js, DiskBlock, SwapSystem.js, the FIFO and LRU
replacement policies, and src/js/simulation/SimulationEngine.js).

Conventions of the embedding:
* JavaScript objects become Lean structures; mutation becomes functional
  update.  Mutual object references (Frame.page, DiskBlock.page, the LRU
  nodes' page field) are modelled as an arena: pages live in an association
  list keyed by page id, and frames/blocks/policy structures store page ids.
* `Date.now()` is modelled by an explicit `now : Nat` argument (milliseconds);
  the several `Date.now()` calls inside one synchronous handler are modelled
  as the same instant.
* JavaScript numbers used as rates/ratios become `Rat`; counters and
  timestamps become `Nat`.
* The doubly linked list inside LRU is represented by the sequence of page
  ids from head (most recently used) to tail (least recently used); the
  `nodeMap` index is exactly the set of ids in that sequence.
* `Math.random`-driven choices (workload generation) are modelled as
  nondeterministic oracles passed in by the caller; rendering fields
  (mesh, color, position, angle, radius) carry no behaviour and are omitted.
* Event callbacks are modelled as an emitted event list, in invocation order.
-/

/-- Location tag of a page: the JS strings 'ram' | 'disk' | 'none'. -/
inductive PageLoc
  | ram
  | disk
  | none
  deriving DecidableEq, Repr

/-- Page record (src/js/core/Page.js constructor). -/
structure Page where
  id : Nat
  processId : Nat
  virtualAddress : Nat
  frameId : Option Nat
  diskBlockId : Option Nat
  location : PageLoc
  lastAccessTime : Nat
  loadTime : Nat
  accessCount : Nat
  referenceBit : Nat
  modifiedBit : Bool
  deriving DecidableEq, Repr

/-- `new Page(id, processId, processName)`. -/
def Page.mkNew (id processId : Nat) : Page :=
  { id := id
    processId := processId
    virtualAddress := id * 4096
    frameId := Option.none
    diskBlockId := Option.none
    location := PageLoc.none
    lastAccessTime := 0
    loadTime := 0
    accessCount := 0
    referenceBit := 0
    modifiedBit := false }

/-- `Page.access(timestamp)`. -/
def Page.access (p : Page) (timestamp : Nat) : Page :=
  { p with lastAccessTime := timestamp
           accessCount := p.accessCount + 1
           referenceBit := 1 }

/-- `Page.moveToRAM(frameId, timestamp)`. -/
def Page.moveToRAM (p : Page) (frameId timestamp : Nat) : Page :=
  { p with frameId := Option.some frameId
           diskBlockId := Option.none
           location := PageLoc.ram
           loadTime := timestamp
           lastAccessTime := timestamp }

/-- `Page.moveToDisk(diskBlockId)`. -/
def Page.moveToDisk (p : Page) (diskBlockId : Nat) : Page :=
  { p with frameId := Option.none
           diskBlockId := Option.some diskBlockId
           location := PageLoc.disk
           referenceBit := 0 }

/-- Frame record (src/js/core/Frame.js); `page` stores the occupant page id. -/
structure Frame where
  id : Nat
  page : Option Nat
  isFree : Bool
  deriving DecidableEq, Repr

def Frame.mkNew (id : Nat) : Frame :=
  { id := id, page := Option.none, isFree := true }

/-- `Frame.allocate(page)`. -/
def Frame.allocate (f : Frame) (pageId : Nat) : Frame :=
  { f with page := Option.some pageId, isFree := false }

/-- `Frame.free()`. -/
def Frame.freeIt (f : Frame) : Frame :=
  { f with page := Option.none, isFree := true }

/-- `Frame.isOccupied()`. -/
def Frame.isOccupied (f : Frame) : Bool :=
  !f.isFree

/-- DiskBlock record (src/unnamed/part_002); `page` stores the occupant id. -/
structure DiskBlock where
  id : Nat
  page : Option Nat
  isFree : Bool
  deriving DecidableEq, Repr

def DiskBlock.mkNew (id : Nat) : DiskBlock :=
  { id := id, page := Option.none, isFree := true }

def DiskBlock.allocate (b : DiskBlock) (pageId : Nat) : DiskBlock :=
  { b with page := Option.some pageId, isFree := false }

def DiskBlock.freeIt (b : DiskBlock) : DiskBlock :=
  { b with page := Option.none, isFree := true }

def DiskBlock.isOccupied (b : DiskBlock) : Bool :=
  !b.isFree

/-- SwapSystem state (src/js/core/SwapSystem.js).  `freeBlocks` holds block
ids in queue order (`shift` takes the head, `push` appends); `ioOperations`
holds the timestamps of recent allocate/free events (the `type` tag carries
no behaviour and is kept as a Bool: `true` = 'out'). -/
structure SwapSystem where
  blockCount : Nat
  blocks : List DiskBlock
  freeBlocks : List Nat
  swapInCount : Nat
  swapOutCount : Nat
  ioOperations : List (Nat × Bool)
  ioWindow : Nat
  deriving DecidableEq, Repr

/-- `SwapSystem.initialize()` (platter geometry omitted). -/
def SwapSystem.initialize (blockCount : Nat) : List DiskBlock :=
  (List.range blockCount).map DiskBlock.mkNew

/-- `new SwapSystem(blockCount)`. -/
def SwapSystem.mkNew (blockCount : Nat) : SwapSystem :=
  { blockCount := blockCount
    blocks := SwapSystem.initialize blockCount
    freeBlocks := List.range blockCount
    swapInCount := 0
    swapOutCount := 0
    ioOperations := []
    ioWindow := 1000 }

/-- `SwapSystem.recordIO(type)`: pushes the event at wall-clock time `now`
and prunes events with `now - op.time >= ioWindow`. -/
def SwapSystem.recordIoEvent (s : SwapSystem) (isOut : Bool) (now : Nat) :
    SwapSystem :=
  { s with ioOperations :=
      ((s.ioOperations ++ [(now, isOut)]).filter
        (fun op => now - op.1 < s.ioWindow)) }

/-- `SwapSystem.allocateBlock(page)`: returns the allocated block id together
with the updated page (the JS function mutates `page` via `moveToDisk`), or
`none` after logging 'Swap space full!' when no free block exists. -/
def SwapSystem.allocateBlock (s : SwapSystem) (p : Page) (now : Nat) :
    Option (Nat × Page) × SwapSystem :=
  match s.freeBlocks with
  | [] => (Option.none, s)
  | blockId :: rest =>
      let blocks := s.blocks.map
        (fun b => if b.id = blockId then b.allocate p.id else b)
      let p := p.moveToDisk blockId
      let s := { s with blocks := blocks
                        freeBlocks := rest
                        swapOutCount := s.swapOutCount + 1 }
      (Option.some (blockId, p), SwapSystem.recordIoEvent s true now)

/-- `SwapSystem.freeBlock(blockId)`: `this.blocks[blockId]` is a positional
index, and every constructed block has `id` equal to its position. -/
def SwapSystem.freeBlock (s : SwapSystem) (blockId : Nat) (now : Nat) :
    SwapSystem :=
  match s.blocks.get? blockId with
  | Option.none => s
  | Option.some _ =>
      let s := { s with
        blocks := s.blocks.map
          (fun b => if b.id = blockId then b.freeIt else b)
        freeBlocks := s.freeBlocks ++ [blockId]
        swapInCount := s.swapInCount + 1 }
      SwapSystem.recordIoEvent s false now

/-- `SwapSystem.getIORate()`: operations per second over the sliding window. -/
def SwapSystem.getIoRate (s : SwapSystem) (now : Nat) : Rat :=
  let recentOps := s.ioOperations.filter (fun op => now - op.1 < s.ioWindow)
  ((recentOps.length : Rat) / (s.ioWindow : Rat)) * 1000

/-- `SwapSystem.getUsedCount()`. -/
def SwapSystem.getUsedCount (s : SwapSystem) : Nat :=
  (s.blocks.filter (fun b => b.isOccupied)).length

/-- `SwapSystem.getUtilization()`. -/
def SwapSystem.getUtilization (s : SwapSystem) : Rat :=
  ((s.getUsedCount : Rat) / (s.blockCount : Rat)) * 100

/-- `SwapSystem.reset()`. -/
def SwapSystem.reset (s : SwapSystem) : SwapSystem :=
  { s with swapInCount := 0
           swapOutCount := 0
           ioOperations := []
           blocks := SwapSystem.initialize s.blockCount
           freeBlocks := List.range s.blockCount }

/-- The loop body of `FIFO.selectVictim`: keep the current oldest unless the
next page has a strictly earlier `loadTime`. -/
def fifoOlder (oldest q : Page) : Page :=
  if q.loadTime < oldest.loadTime then q else oldest

/-- `FIFO.selectVictim(ramPages)` (src/unnamed/part_003): scans for the page
with the earliest `loadTime`, keeping the earlier list element on ties. -/
def FIFO.selectVictim (ramPages : List Page) : Option Page :=
  match ramPages with
  | [] => Option.none
  | p :: rest => Option.some (rest.foldl fifoOlder p)

/-- `FIFO.onPageLoad(page, timestamp)`: re-stamps `loadTime` and appends the
page id to the arrival queue if absent.  Returns the updated page and queue. -/
def FIFO.onPageLoad (queue : List Nat) (p : Page) (timestamp : Nat) :
    Page × List Nat :=
  ({ p with loadTime := timestamp },
   if queue.contains p.id then queue else queue ++ [p.id])

/-- `FIFO.onEvict(page)`: removes the id from the arrival queue
(`indexOf` + `splice(idx, 1)` removes the first occurrence). -/
def FIFO.onEvict (queue : List Nat) (p : Page) : List Nat :=
  queue.erase p.id

/-- `LRU.moveToFront(page)` on the embedded order list (head = MRU):
unlink the node if present and relink it at the head; when the id is not in
the index the JS falls back to `addToFront`, which conses it — in both cases
the result is `p.id` consed onto the list with its occurrence removed. -/
def LRU.moveToFront (order : List Nat) (pageId : Nat) : List Nat :=
  pageId :: order.erase pageId

/-- `LRU.addToFront(page)`: `moveToFront` when the id is already indexed,
otherwise a new node consed at the head. -/
def LRU.addToFront (order : List Nat) (pageId : Nat) : List Nat :=
  if order.contains pageId then LRU.moveToFront order pageId
  else pageId :: order

/-- The fallback scan of `LRU.selectVictim` when the list is empty:
page with the earliest `lastAccessTime`, earlier list element on ties. -/
def lruOlder (lru q : Page) : Page :=
  if q.lastAccessTime < lru.lastAccessTime then q else lru

/-- `LRU.selectVictim(ramPages)` (src/unnamed/part_004): returns the tail's
page when the list is non-empty (`lookup` dereferences the node's page
field in the arena), otherwise falls back to a scan of `ramPages`. -/
def LRU.selectVictim (order : List Nat) (lookup : Nat → Option Page)
    (ramPages : List Page) : Option Page :=
  match order.getLast? with
  | Option.some pageId => lookup pageId
  | Option.none =>
      match ramPages with
      | [] => Option.none
      | p :: rest => Option.some (rest.foldl lruOlder p)

/-- `LRU.onEvict(page)`: unlink the node and drop it from the index. -/
def LRU.onEvict (order : List Nat) (p : Page) : List Nat :=
  order.erase p.id

/-- The tracking state of the active policy object: `FIFO.queue`, or the
LRU recency list from head (MRU) to tail (LRU). -/
inductive PolicyState
  | fifo (queue : List Nat)
  | lru (order : List Nat)
  deriving DecidableEq, Repr

/-- `policy.getName()`. -/
def PolicyState.getName : PolicyState → String
  | .fifo _ => "FIFO"
  | .lru _ => "LRU"

/-- `policy.reset()`. -/
def PolicyState.reset : PolicyState → PolicyState
  | .fifo _ => .fifo []
  | .lru _ => .lru []

/-- Page arena: the engine's `allPages` Map, as an association list in
insertion order (`Map.set` replaces in place or appends). -/
def lookupPage (store : List (Nat × Page)) (pid : Nat) : Option Page :=
  (store.find? (fun kv => kv.1 = pid)).map (fun kv => kv.2)

/-- Write back a mutated page object into the arena. -/
def setPage (store : List (Nat × Page)) (p : Page) : List (Nat × Page) :=
  store.map (fun kv => if kv.1 = p.id then (kv.1, p) else kv)

/-- `allPages.set(page.id, page)` for a possibly-new key. -/
def putPage (store : List (Nat × Page)) (p : Page) : List (Nat × Page) :=
  if store.any (fun kv => kv.1 = p.id) then setPage store p
  else store ++ [(p.id, p)]

/-- The `options` argument of the Process constructor; absent JS fields are
`none`. -/
structure ProcessOptions where
  locality : Option Rat
  workingSetSize : Option Nat
  deriving DecidableEq, Repr

def ProcessOptions.default : ProcessOptions :=
  { locality := Option.none, workingSetSize := Option.none }

/-- Process record (src/js/ui/ScenarioSelector.js, class Process); `pages`
holds the ids of the owned pages, in creation order. -/
structure Process where
  id : Nat
  name : String
  pageCount : Nat
  pageIds : List Nat
  locality : Rat
  workingSetSize : Nat
  totalAccesses : Nat
  pageFaults : Nat
  deriving DecidableEq, Repr

/-- `new Process(id, name, pageCount, options)`: `options.locality || 0.7`
and `options.workingSetSize || Math.ceil(pageCount * 0.4)`; the JS `||`
treats an explicit 0 as absent. -/
def Process.mkNew (id : Nat) (name : String) (pageCount : Nat)
    (options : ProcessOptions) : Process :=
  { id := id
    name := name
    pageCount := pageCount
    pageIds := []
    locality :=
      match options.locality with
      | Option.some l => if l = 0 then (7 : Rat) / 10 else l
      | Option.none => (7 : Rat) / 10
    workingSetSize :=
      match options.workingSetSize with
      | Option.some k =>
          if k = 0 then (((pageCount : Rat) * ((4 : Rat) / 10)).ceil).toNat
          else k
      | Option.none => (((pageCount : Rat) * ((4 : Rat) / 10)).ceil).toNat
    totalAccesses := 0
    pageFaults := 0 }

/-- `Process.createPages(startId)`: fresh pages with consecutive ids. -/
def Process.createPages (pr : Process) (startId : Nat) :
    List Page × Process :=
  let pages := (List.range pr.pageCount).map
    (fun i => Page.mkNew (startId + i) pr.id)
  (pages, { pr with pageIds := pages.map (fun p => p.id) })

def Process.recordAccess (pr : Process) : Process :=
  { pr with totalAccesses := pr.totalAccesses + 1 }

def Process.recordPageFault (pr : Process) : Process :=
  { pr with pageFaults := pr.pageFaults + 1 }

/-- Engine configuration (recognized options). -/
structure Config where
  ramFrames : Nat
  swapBlocks : Nat
  pageSize : Nat
  accessInterval : Nat
  policy : String
  deriving DecidableEq, Repr

/-- The constructor's default configuration. -/
def Config.default : Config :=
  { ramFrames := 32, swapBlocks := 64, pageSize := 4
    accessInterval := 300, policy := "LRU" }

/-- A `newConfig` argument of `updateConfig`: absent JS fields are `none`. -/
structure ConfigPatch where
  ramFrames : Option Nat
  swapBlocks : Option Nat
  pageSize : Option Nat
  accessInterval : Option Nat
  policy : Option String
  deriving DecidableEq, Repr

/-- `Object.assign(this.config, newConfig)`. -/
def Config.assign (c : Config) (p : ConfigPatch) : Config :=
  { ramFrames := p.ramFrames.getD c.ramFrames
    swapBlocks := p.swapBlocks.getD c.swapBlocks
    pageSize := p.pageSize.getD c.pageSize
    accessInterval := p.accessInterval.getD c.accessInterval
    policy := p.policy.getD c.policy }

/-- Event callbacks fired by the engine, in invocation order. -/
inductive SimEvent
  | pageAllocated (pageId frameId : Nat)
  | pageEvicted (pageId : Nat) (frameId : Option Nat)
  | pageSwappedIn (pageId : Nat)
  | pageSwappedOut (pageId : Nat) (blockId : Option Nat)
  | pageAccessed (pageId : Nat) (hit : Bool)
  | pageFault (pageId : Nat)
  | thrashingChange (isThrashing : Bool)
  | statsUpdate
  | processAdded (processId : Nat)
  | simulationStep
  deriving DecidableEq, Repr

/-- The engine's mutable counters (`this.stats`). -/
structure StatsCounters where
  totalPageFaults : Nat
  pageFaultsThisSecond : Nat
  pageFaultTimes : List Nat
  swapInCount : Nat
  swapOutCount : Nat
  memoryAccesses : Nat
  hitCount : Nat
  deriving DecidableEq, Repr

def StatsCounters.zero : StatsCounters :=
  { totalPageFaults := 0, pageFaultsThisSecond := 0, pageFaultTimes := []
    swapInCount := 0, swapOutCount := 0, memoryAccesses := 0, hitCount := 0 }

/-- SimulationEngine state (src/js/simulation/SimulationEngine.js).
The play-loop fields (isRunning, isPaused, speed, animationFrameId,
lastStepTime) and the WorkloadGenerator are wall-clock/randomness glue:
`step` instead receives the generated batch as an oracle argument. -/
structure Engine where
  config : Config
  frames : List Frame
  freeFrames : List Nat
  swapSystem : SwapSystem
  policy : PolicyState
  processes : List Process
  allPages : List (Nat × Page)
  pageIdCounter : Nat
  simulationTime : Nat
  thrashingThreshold : Rat
  isThrashing : Bool
  stats : StatsCounters
  deriving DecidableEq, Repr

/-- `policy.onPageAccess(page, timestamp)`: the base class stamps the page
(`page.access`); LRU additionally splices the node to the front. -/
def PolicyState.onPageAccess (ps : PolicyState) (p : Page) (timestamp : Nat) :
    Page × PolicyState :=
  match ps with
  | .fifo queue => (p.access timestamp, .fifo queue)
  | .lru order => (p.access timestamp, .lru (LRU.moveToFront order p.id))

/-- `policy.onPageLoad(page, timestamp)`. -/
def PolicyState.onPageLoad (ps : PolicyState) (p : Page) (timestamp : Nat) :
    Page × PolicyState :=
  match ps with
  | .fifo queue =>
      let r := FIFO.onPageLoad queue p timestamp
      (r.1, .fifo r.2)
  | .lru order => (p, .lru (LRU.addToFront order p.id))

/-- `policy.onEvict(page)`. -/
def PolicyState.onEvict (ps : PolicyState) (p : Page) : PolicyState :=
  match ps with
  | .fifo queue => .fifo (FIFO.onEvict queue p)
  | .lru order => .lru (LRU.onEvict order p)

/-- `policy.selectVictim(ramPages)`; `lookup` dereferences LRU node pages. -/
def PolicyState.selectVictim (ps : PolicyState) (lookup : Nat → Option Page)
    (ramPages : List Page) : Option Page :=
  match ps with
  | .fifo _ => FIFO.selectVictim ramPages
  | .lru order => LRU.selectVictim order lookup ramPages

/-- `SimulationEngine.initializeFrames()` (grid geometry omitted). -/
def initializeFrames (ramFrames : Nat) : List Frame :=
  (List.range ramFrames).map Frame.mkNew

/-- JS `String.prototype.toUpperCase` restricted to ASCII names. -/
def jsToUpper (s : String) : String :=
  String.mk (s.data.map Char.toUpper)

/-- `SimulationEngine.setPolicy(policyName)`: 'FIFO' selects FIFO, 'LRU'
and every other name fall through to the `default:` arm and construct LRU;
the config records the name as given.  The JS has no failure path. -/
def Engine.setPolicy (e : Engine) (policyName : String) : Engine :=
  let policy :=
    if jsToUpper policyName = "FIFO" then PolicyState.fifo []
    else PolicyState.lru []
  { e with policy := policy
           config := { e.config with policy := policyName } }

/-- The engine constructor plus `initialize()`. -/
def Engine.mkNew : Engine :=
  let cfg := Config.default
  let e : Engine :=
    { config := cfg
      frames := initializeFrames cfg.ramFrames
      freeFrames := List.range cfg.ramFrames
      swapSystem := SwapSystem.mkNew cfg.swapBlocks
      policy := PolicyState.lru []
      processes := []
      allPages := []
      pageIdCounter := 0
      simulationTime := 0
      thrashingThreshold := 5
      isThrashing := false
      stats := StatsCounters.zero }
  e.setPolicy cfg.policy

/-- `SimulationEngine.checkThrashing()`: recompute `isThrashing` from the
current I/O rate and fire `onThrashingChange` only when the flag flips. -/
def Engine.checkThrashing (e : Engine) (now : Nat) : Engine × List SimEvent :=
  let ioRate := e.swapSystem.getIoRate now
  let wasThrashing := e.isThrashing
  let thrashing := decide (e.thrashingThreshold ≤ ioRate)
  let e := { e with isThrashing := thrashing }
  (e, if wasThrashing != thrashing then [SimEvent.thrashingChange thrashing]
      else [])

/-- `SimulationEngine.allocatePageToFrame(page)`: takes the head of the free
frame list, installs the page, stamps it via `moveToRAM`, and notifies the
policy.  The arena lookup cannot fail for pages created by `addProcess`. -/
def Engine.allocatePageToFrame (e : Engine) (pid : Nat) :
    Engine × List SimEvent :=
  match e.freeFrames with
  | [] => (e, [])
  | frameId :: rest =>
      match lookupPage e.allPages pid with
      | Option.none => (e, [])
      | Option.some p =>
          let frames := e.frames.map
            (fun f => if f.id = frameId then f.allocate pid else f)
          let p := p.moveToRAM frameId e.simulationTime
          let r := e.policy.onPageLoad p e.simulationTime
          let e := { e with frames := frames
                            freeFrames := rest
                            allPages := setPage e.allPages r.1
                            policy := r.2 }
          (e, [SimEvent.pageAllocated pid frameId])

/-- `SimulationEngine.evictPage()`: collect the pages held by frames, ask the
policy for a victim, free the victim's frame, notify, and swap the victim
out.  When `allocateBlock` returns `null` (swap exhausted) the victim is left
with `location = 'ram'` while no frame holds it any more. -/
def Engine.evictPage (e : Engine) (now : Nat) : Engine × List SimEvent :=
  let ramPages := e.frames.filterMap
    (fun (f : Frame) => f.page.bind (lookupPage e.allPages))
  match e.policy.selectVictim (lookupPage e.allPages) ramPages with
  | Option.none => (e, [])
  | Option.some victim =>
      let freed : List Frame × List Nat × Option Nat :=
        match victim.frameId with
        | Option.some frameId =>
            match e.frames.get? frameId with
            | Option.some _ =>
                (e.frames.map
                   (fun f => if f.id = frameId then f.freeIt else f),
                 e.freeFrames ++ [frameId], Option.some frameId)
            | Option.none => (e.frames, e.freeFrames, Option.none)
        | Option.none => (e.frames, e.freeFrames, Option.none)
      let policy := e.policy.onEvict victim
      let blockRes := e.swapSystem.allocateBlock victim now
      let allPages :=
        match blockRes.1 with
        | Option.some r => setPage e.allPages r.2
        | Option.none => e.allPages
      let e := { e with frames := freed.1
                        freeFrames := freed.2.1
                        policy := policy
                        swapSystem := blockRes.2
                        allPages := allPages
                        stats := { e.stats with
                          swapOutCount := e.stats.swapOutCount + 1 } }
      (e, [SimEvent.pageEvicted victim.id freed.2.2,
           SimEvent.pageSwappedOut victim.id
             ((blockRes.1).map (fun r => r.1))])

/-- `SimulationEngine.handlePageFault(page)`: counters and sliding fault
window first, then `onPageFault`, evict when no frame is free, release the
faulting page's disk block when it was swapped, load the page into a frame,
and recompute thrashing.  The faulting page is re-read from the arena after
eviction, mirroring the live-object reads of the JS. -/
def Engine.handlePageFault (e : Engine) (pid : Nat) (now : Nat) :
    Engine × List SimEvent :=
  match lookupPage e.allPages pid with
  | Option.none => (e, [])
  | Option.some page =>
      let faultTimes :=
        (e.stats.pageFaultTimes ++ [now]).filter (fun t => now - t < 1000)
      let e := { e with
        stats := { e.stats with
          totalPageFaults := e.stats.totalPageFaults + 1
          pageFaultTimes := faultTimes
          pageFaultsThisSecond := faultTimes.length }
        processes := e.processes.map
          (fun (pr : Process) => if pr.id = page.processId then pr.recordPageFault
                     else pr) }
      let evFault := [SimEvent.pageFault pid]
      let evicted :=
        if e.freeFrames.isEmpty then e.evictPage now else (e, [])
      let e := evicted.1
      let swappedIn : Engine × List SimEvent :=
        match lookupPage e.allPages pid with
        | Option.some pg =>
            match pg.location, pg.diskBlockId with
            | PageLoc.disk, Option.some blockId =>
                ({ e with
                   swapSystem := e.swapSystem.freeBlock blockId now
                   stats := { e.stats with
                     swapInCount := e.stats.swapInCount + 1 } },
                 [SimEvent.pageSwappedIn pid])
            | _, _ => (e, [])
        | Option.none => (e, [])
      let e := swappedIn.1
      let alloc := e.allocatePageToFrame pid
      let e := alloc.1
      let thrash := e.checkThrashing now
      (thrash.1,
       evFault ++ evicted.2 ++ swappedIn.2 ++ alloc.2 ++ thrash.2)

/-- `SimulationEngine.accessPage(page)`: `null` is a no-op; otherwise count
the access, record it on the owning process, and branch on hit or fault. -/
def Engine.accessPage (e : Engine) (pid? : Option Nat) (now : Nat) :
    Engine × List SimEvent :=
  match pid? with
  | Option.none => (e, [])
  | Option.some pid =>
      match lookupPage e.allPages pid with
      | Option.none => (e, [])
      | Option.some page =>
          let e := { e with
            stats := { e.stats with
              memoryAccesses := e.stats.memoryAccesses + 1 }
            processes := e.processes.map
              (fun (pr : Process) => if pr.id = page.processId then pr.recordAccess
                         else pr) }
          if page.location = PageLoc.ram then
            let r := e.policy.onPageAccess page e.simulationTime
            let e := { e with
              stats := { e.stats with hitCount := e.stats.hitCount + 1 }
              allPages := setPage e.allPages r.1
              policy := r.2 }
            (e, [SimEvent.pageAccessed pid true])
          else
            e.handlePageFault pid now

/-- `SimulationEngine.allocateInitialPages(process)`: place each page into a
free frame while one exists, otherwise straight into a swap block (firing
`onPageSwappedOut` only when a block was actually allocated). -/
def Engine.allocateInitialPages (e : Engine) (pageIds : List Nat)
    (now : Nat) : Engine × List SimEvent :=
  pageIds.foldl
    (fun acc pid =>
      let e := acc.1
      if e.freeFrames.isEmpty then
        match lookupPage e.allPages pid with
        | Option.none => acc
        | Option.some p =>
            let r := e.swapSystem.allocateBlock p now
            let e := { e with
              swapSystem := r.2
              allPages :=
                match r.1 with
                | Option.some br => setPage e.allPages br.2
                | Option.none => e.allPages }
            (e, acc.2 ++
              (match r.1 with
               | Option.some br =>
                   [SimEvent.pageSwappedOut pid (Option.some br.1)]
               | Option.none => []))
      else
        let r := e.allocatePageToFrame pid
        (r.1, acc.2 ++ r.2))
    (e, [])

/-- `SimulationEngine.addProcess(name, pageCount, options)`. -/
def Engine.addProcess (e : Engine) (name : String) (pageCount : Nat)
    (options : ProcessOptions) (now : Nat) : Engine × List SimEvent :=
  let processId := e.processes.length
  let pr := Process.mkNew processId name pageCount options
  let created := pr.createPages e.pageIdCounter
  let e := { e with
    pageIdCounter := e.pageIdCounter + pageCount
    allPages := created.1.foldl putPage e.allPages
    processes := e.processes ++ [created.2] }
  let r := e.allocateInitialPages created.2.pageIds now
  (r.1, r.2 ++ [SimEvent.processAdded processId])

/-- `SimulationEngine.reset()` (the play-loop pause is outside the model;
note `SwapSystem.reset` keeps the swap pool's existing `blockCount`). -/
def Engine.reset (e : Engine) : Engine :=
  { e with processes := []
           allPages := []
           pageIdCounter := 0
           simulationTime := 0
           isThrashing := false
           stats := StatsCounters.zero
           frames := initializeFrames e.config.ramFrames
           freeFrames := List.range e.config.ramFrames
           swapSystem := e.swapSystem.reset
           policy := e.policy.reset }

/-- `SimulationEngine.updateConfig(newConfig)`: `needsReinit` compares with
`!==`, so an absent field also differs from the current number; the policy
branch tests JS truthiness (`''` is falsy). -/
def Engine.updateConfig (e : Engine) (patch : ConfigPatch) : Engine :=
  let needsReinit :=
    patch.ramFrames != Option.some e.config.ramFrames ||
    patch.swapBlocks != Option.some e.config.swapBlocks
  let e := { e with config := e.config.assign patch }
  let e := if needsReinit then e.reset else e
  match patch.policy with
  | Option.some name => if name = "" then e else e.setPolicy name
  | Option.none => e

/-- `SimulationEngine.step()`: the generated batch is supplied as an
oracle (each entry is the accessed page id, or `none` for a null access). -/
def Engine.step (e : Engine) (batch : List (Option Nat)) (now : Nat) :
    Engine × List SimEvent :=
  let run := batch.foldl
    (fun (acc : Engine × List SimEvent) pid? =>
      let r := acc.1.accessPage pid? now
      (r.1, acc.2 ++ r.2))
    (e, [])
  let e := { run.1 with
    simulationTime := run.1.simulationTime + run.1.config.accessInterval }
  let thrash := e.checkThrashing now
  (thrash.1,
   run.2 ++ thrash.2 ++ [SimEvent.simulationStep, SimEvent.statsUpdate])

/-- The stats snapshot returned by `SimulationEngine.getStats()`. -/
structure StatsSnapshot where
  totalPageFaults : Nat
  pageFaultsPerSecond : Nat
  swapInCount : Nat
  swapOutCount : Nat
  diskIoRate : Rat
  ramUsed : Nat
  ramTotal : Nat
  ramUtilization : Rat
  swapUsed : Nat
  swapTotal : Nat
  swapUtilization : Rat
  memoryAccesses : Nat
  hitCount : Nat
  hitRatio : Rat
  isThrashing : Bool
  thrashingLevel : Rat
  simulationTime : Nat
  currentPolicy : String
  deriving DecidableEq, Repr

/-- JS `x.toFixed(1)` read back as a number: rounding to one decimal place
(half away from zero; all values rounded here are nonnegative, where this
agrees with Mathlib's half-up `round`). -/
def jsToFixed1 (q : Rat) : Rat :=
  ((round (q * 10) : Int) : Rat) / 10

/-- `SimulationEngine.getStats()` (inlining `SwapSystem.getStats()`). -/
def Engine.getStats (e : Engine) (now : Nat) : StatsSnapshot :=
  let ramUsage := (e.frames.filter (fun f => f.isOccupied)).length
  let swapIoRate := e.swapSystem.getIoRate now
  { totalPageFaults := e.stats.totalPageFaults
    pageFaultsPerSecond := e.stats.pageFaultsThisSecond
    swapInCount := e.stats.swapInCount
    swapOutCount := e.stats.swapOutCount
    diskIoRate := swapIoRate
    ramUsed := ramUsage
    ramTotal := e.config.ramFrames
    ramUtilization := ((ramUsage : Rat) / (e.config.ramFrames : Rat)) * 100
    swapUsed := e.swapSystem.getUsedCount
    swapTotal := e.swapSystem.blockCount
    swapUtilization := e.swapSystem.getUtilization
    memoryAccesses := e.stats.memoryAccesses
    hitCount := e.stats.hitCount
    hitRatio :=
      if e.stats.memoryAccesses > 0 then
        jsToFixed1
          (((e.stats.hitCount : Rat) / (e.stats.memoryAccesses : Rat)) * 100)
      else 0
    isThrashing := e.isThrashing
    thrashingLevel :=
      min 100 ((swapIoRate / e.thrashingThreshold) * 100)
    simulationTime := e.simulationTime
    currentPolicy := e.policy.getName }

/-!  Concrete traces and auxiliary models used by the verification. -/

/-- Default engine after `addProcess('A', 97)`: pages 0–31 fill the 32 RAM
frames, pages 32–95 fill the 64 swap blocks, page 96 stays unmapped
(`allocateBlock` already returned `null` for it during initial placement). -/
def swapFullBase : Engine :=
  (Engine.mkNew.addProcess "A" 97 ProcessOptions.default 0).1

/-- The faulting access to page 96 while RAM and swap are both full. -/
def swapFullAfter : Engine :=
  (swapFullBase.accessPage (Option.some 96) 0).1

/-- The events emitted by that access. -/
def swapFullEvents : List SimEvent :=
  (swapFullBase.accessPage (Option.some 96) 0).2

/-- A config patch carrying only `ramFrames = 1`. -/
def onlyRamFrames1 : ConfigPatch :=
  { ramFrames := Option.some 1, swapBlocks := Option.none
    pageSize := Option.none, accessInterval := Option.none
    policy := Option.none }

/-- Engine with one RAM frame and two pages (page 0 resident, page 1
swapped), after one hit on page 0 and one fault on page 1:
`hitCount = 1`, `memoryAccesses = 2`. -/
def hitMissAfter : Engine :=
  let e := (Engine.mkNew.updateConfig onlyRamFrames1).addProcess "A" 2
    ProcessOptions.default 0
  let e := (e.1.accessPage (Option.some 0) 0).1
  (e.accessPage (Option.some 1) 0).1

/-- Default engine holding a single one-page process (page 0 resident). -/
def onePageEngine : Engine :=
  (Engine.mkNew.addProcess "A" 1 ProcessOptions.default 0).1

/-- A full config patch (the shape the Controls UI submits) that keeps both
pool sizes and changes only the policy name. -/
def policyOnlyPatch : ConfigPatch :=
  { ramFrames := Option.some 32, swapBlocks := Option.some 64
    pageSize := Option.none, accessInterval := Option.none
    policy := Option.some "FIFO" }

/-- `onePageEngine` after `updateConfig(policyOnlyPatch)`. -/
def policySwitched : Engine :=
  onePageEngine.updateConfig policyOnlyPatch

/-- Two pages sharing the minimal `loadTime` 0, listed larger id first. -/
def pgIdFive : Page := Page.mkNew 5 0

def pgIdTwo : Page := Page.mkNew 2 0

/-- One call of the LRU tracking contract as the engine performs it:
a load is `page.moveToRAM(frameId, t)` immediately followed by
`LRU.onPageLoad` (SimulationEngine.allocatePageToFrame), an access is
`LRU.onPageAccess` (which runs `page.access(t)` and `moveToFront`), an
evict is `LRU.onEvict`. -/
inductive LRUEvent
  | load (pid frameId t : Nat)
  | access (pid t : Nat)
  | evict (pid : Nat)
  deriving DecidableEq, Repr

/-- LRU tracking state: the recency list plus the page arena
(every page object exists; `pages pid` has id `pid`). -/
structure LRUTracker where
  order : List Nat
  pages : Nat → Page

/-- Apply one contract call to the tracker. -/
def lruTrack (tr : LRUTracker) : LRUEvent → LRUTracker
  | .load pid frameId t =>
      { order := LRU.addToFront tr.order pid
        pages := fun q =>
          if q = pid then (tr.pages pid).moveToRAM frameId t
          else tr.pages q }
  | .access pid t =>
      { order := LRU.moveToFront tr.order pid
        pages := fun q =>
          if q = pid then (tr.pages pid).access t else tr.pages q }
  | .evict pid =>
      { tr with order := LRU.onEvict tr.order (tr.pages pid) }

/-- Run a sequence of contract calls. -/
def lruRun (tr : LRUTracker) (es : List LRUEvent) : LRUTracker :=
  es.foldl lruTrack tr

/-- The initial tracker: empty recency list over a fresh arena. -/
def lruInit : LRUTracker :=
  { order := [], pages := fun pid => Page.mkNew pid 0 }

/-- Timestamps of a contract-call sequence are non-decreasing starting from
clock `c` (the engine only ever calls the policy with its monotone
`simulationTime`). -/
def chronologicalFrom (c : Nat) : List LRUEvent → Bool
  | [] => true
  | .load _ _ t :: es => decide (c ≤ t) && chronologicalFrom t es
  | .access _ t :: es => decide (c ≤ t) && chronologicalFrom t es
  | .evict _ :: es => chronologicalFrom c es

/-- A sample contract-call sequence for concrete evaluation. -/
def lruSampleEvents : List LRUEvent :=
  [LRUEvent.load 1 0 10, LRUEvent.load 2 1 20, LRUEvent.access 1 30,
   LRUEvent.load 3 2 30, LRUEvent.evict 2]

/-- Run `checkThrashing` over a stream of observations: each entry is the
swap system's state and the wall-clock instant at that check (between two
checks the swap system evolves arbitrarily). -/
def runThrashChecks (e : Engine) :
    List (SwapSystem × Nat) → Engine × List SimEvent
  | [] => (e, [])
  | sn :: rest =>
      let r := ({ e with swapSystem := sn.1 }).checkThrashing sn.2
      let rs := runThrashChecks r.1 rest
      (rs.1, r.2 ++ rs.2)

/-- The specified notification pattern: one `onThrashingChange` per boolean
state change, none while the state is unchanged. -/
def transitionEvents (b : Bool) : List Bool → List SimEvent
  | [] => []
  | s :: rest =>
      (if b != s then [SimEvent.thrashingChange s] else []) ++
      transitionEvents s rest

/-- Invariant of the LRU tracker under the contract: the arena is keyed by
id, the recency list has no duplicate nodes, every tracked page was last
touched no later than the clock, and the list is ordered by non-increasing
`lastAccessTime` from head to tail. -/
def lruInv (tr : LRUTracker) (c : Nat) : Prop :=
  (∀ pid, (tr.pages pid).id = pid) ∧
  tr.order.Nodup ∧
  (∀ pid ∈ tr.order, (tr.pages pid).lastAccessTime ≤ c) ∧
  tr.order.Pairwise
    (fun a b => (tr.pages b).lastAccessTime ≤ (tr.pages a).lastAccessTime)

/-- Five consecutive swap-out allocations against a fresh 64-block pool
(the default config's swap size), at the given wall-clock instants. -/
def fiveSwapOuts (pg : Page) (t1 t2 t3 t4 t5 : Nat) : SwapSystem :=
  let s1 := ((SwapSystem.mkNew 64).allocateBlock pg t1).2
  let s2 := (s1.allocateBlock pg t2).2
  let s3 := (s2.allocateBlock pg t3).2
  let s4 := (s3.allocateBlock pg t4).2
  (s4.allocateBlock pg t5).2

/-!  Theorems. -/

set_option maxRecDepth 100000

/-- **C10.**  `accessPage(null)` is a complete no-op: the engine state
(statistics, frames, swap blocks, policy tracking, processes, pages) is
returned unchanged and no event callback fires. -/
theorem C10_accessPage_null_noop (e : Engine) (now : Nat) :
    (e.accessPage Option.none now).1 = e ∧
    (e.accessPage Option.none now).2 = [] :=
  ⟨rfl, rfl⟩

/-- **C9.**  The claim says an unrecognized policy identifier makes
`setPolicy` fail with an explicit `InvalidPolicyName` error.  The code has
no failure path at all: the `switch` sends every unrecognized name through
the `default:` arm, silently installing LRU while recording the bogus name
in the config — evaluated here at the unrecognized name 'CLOCK'. -/
theorem C9_setPolicy_silently_defaults :
    (Engine.mkNew.setPolicy "CLOCK").policy = PolicyState.lru [] ∧
    (Engine.mkNew.setPolicy "CLOCK").config.policy = "CLOCK" := by
  decide

/-- **C1.**  The claim says an eviction hitting an exhausted swap pool must
surface a recoverable `SwapExhausted` error and fail the triggering access.
In the code `allocateBlock` returns `null` and `evictPage` carries on: in
the reachable state `swapFullBase` (97 pages against 32 frames + 64 blocks),
the faulting access to page 96 runs to completion (page 96 ends Resident
and `onPageAllocated` fires), `onPageSwappedOut` even fires with a `null`
block, and victim page 0 is silently dropped — still marked Resident while
no frame and no disk block holds it. -/
theorem C1_swap_exhausted_drops_victim :
    (lookupPage swapFullAfter.allPages 96).map (fun p => p.location) =
      Option.some PageLoc.ram ∧
    SimEvent.pageAllocated 96 0 ∈ swapFullEvents ∧
    SimEvent.pageSwappedOut 0 Option.none ∈ swapFullEvents ∧
    (lookupPage swapFullAfter.allPages 0).map (fun p => p.location) =
      Option.some PageLoc.ram ∧
    swapFullAfter.frames.all (fun f => f.page != Option.some 0) = true ∧
    swapFullAfter.swapSystem.blocks.all
      (fun b => b.page != Option.some 0) = true := by
  decide

/-- **C2.**  The claim says bidirectional Page–Frame consistency holds in
every reachable state, in particular after an eviction attempted while the
swap pool is full.  In the reachable state `swapFullAfter` (built by
`addProcess` and one `accessPage` on the default configuration) victim
page 0 still records `Resident(frame 0)` while frame 0 holds page 96: a
Resident page whose frame does not point back to it. -/
theorem C2_resident_frame_consistency_broken :
    (lookupPage swapFullAfter.allPages 0).map
      (fun p => (p.location, p.frameId)) =
      Option.some (PageLoc.ram, Option.some 0) ∧
    swapFullAfter.frames.get? 0 =
      Option.some { id := 0, page := Option.some 96, isFree := false } := by
  decide

/-- **C8 (counterexample).**  The claim says `updateConfig` with a new
policy name performs a full reset (page set destroyed and recreated, frame
and swap pools reinitialized).  With the patch the Controls UI submits —
pool sizes equal to the current config, policy switched to FIFO — no reset
happens: the policy object is replaced, yet frame 0 still holds page 0,
page 0 is still Resident, and the process list survives. -/
theorem C8_policy_change_no_reset_counterexample :
    policySwitched.policy = PolicyState.fifo [] ∧
    policySwitched.frames.get? 0 =
      Option.some { id := 0, page := Option.some 0, isFree := false } ∧
    (lookupPage policySwitched.allPages 0).map (fun p => p.location) =
      Option.some PageLoc.ram ∧
    policySwitched.processes.length = 1 := by
  decide

/-- **C8 (amended).**  `updateConfig` resets only when the patch's
`ramFrames` or `swapBlocks` differs from (or is absent relative to) the
current config.  A policy change with matching pool sizes merely installs a
fresh policy object — the new policy's tracking state is empty — and leaves
frames, free list, swap system, pages, processes, statistics and the clock
untouched; no resident page is migrated. -/
theorem C8_policy_change_only_swaps_policy (e : Engine) (patch : ConfigPatch)
    (name : String)
    (hr : patch.ramFrames = Option.some e.config.ramFrames)
    (hs : patch.swapBlocks = Option.some e.config.swapBlocks)
    (hp : patch.policy = Option.some name) (hne : name ≠ "") :
    (e.updateConfig patch).frames = e.frames ∧
    (e.updateConfig patch).freeFrames = e.freeFrames ∧
    (e.updateConfig patch).swapSystem = e.swapSystem ∧
    (e.updateConfig patch).allPages = e.allPages ∧
    (e.updateConfig patch).processes = e.processes ∧
    (e.updateConfig patch).stats = e.stats ∧
    (e.updateConfig patch).simulationTime = e.simulationTime ∧
    (e.updateConfig patch).policy =
      (if jsToUpper name = "FIFO" then PolicyState.fifo []
       else PolicyState.lru []) ∧
    (e.updateConfig patch).config = e.config.assign patch := by
  unfold Engine.updateConfig
  rw [hr, hs, hp]
  simp [Engine.setPolicy, hne, Config.assign, hp]

/-- Witness for C8 (amended) at the concrete engine `onePageEngine` and the
concrete patch `policyOnlyPatch`. -/
theorem C8_policy_change_only_swaps_policy_witness :
    policyOnlyPatch.ramFrames = Option.some onePageEngine.config.ramFrames ∧
    policyOnlyPatch.swapBlocks =
      Option.some onePageEngine.config.swapBlocks ∧
    policyOnlyPatch.policy = Option.some "FIFO" ∧
    "FIFO" ≠ "" ∧
    (onePageEngine.updateConfig policyOnlyPatch).allPages =
      onePageEngine.allPages :=
  ⟨by decide, by decide, by decide, by decide,
   (C8_policy_change_only_swaps_policy onePageEngine policyOnlyPatch "FIFO"
     (by decide) (by decide) (by decide) (by decide)).2.2.2.1⟩

/-- **C7 (counterexample).**  The claim says the snapshot's `hitRatio`
equals `hitCount / memoryAccesses`.  In the reachable state `hitMissAfter`
(one hit, one fault) that quotient is 1/2, but the code computes
`(hitCount / memoryAccesses * 100).toFixed(1)` — a percentage — so the
snapshot carries 50, not 1/2. -/
theorem C7_hitRatio_is_percentage_counterexample :
    hitMissAfter.stats.hitCount = 1 ∧
    hitMissAfter.stats.memoryAccesses = 2 ∧
    (hitMissAfter.getStats 0).hitRatio = 50 ∧
    ((hitMissAfter.stats.hitCount : Rat) /
      (hitMissAfter.stats.memoryAccesses : Rat)) = 1 / 2 ∧
    ((50 : Rat) ≠ 1 / 2) := by
  have h1 : hitMissAfter.stats.memoryAccesses = 2 := by decide
  have h2 : hitMissAfter.stats.hitCount = 1 := by decide
  refine ⟨h2, h1, ?_, by rw [h1, h2]; norm_num, by norm_num⟩
  show (Engine.getStats hitMissAfter 0).hitRatio = 50
  unfold Engine.getStats
  simp only [h1, h2]
  norm_num [jsToFixed1, round_eq]

/-- **C7 (amended).**  The snapshot's `hitRatio` is
`hitCount / memoryAccesses` expressed as a percentage and rounded to one
decimal place (so it lies within 1/20 of the exact percentage), and it is 0
when `memoryAccesses` is 0 — no division by zero occurs. -/
theorem C7_hitRatio_rounded_percentage (e : Engine) (now : Nat) :
    (e.stats.memoryAccesses = 0 → (e.getStats now).hitRatio = 0) ∧
    (0 < e.stats.memoryAccesses →
      |(e.getStats now).hitRatio -
        ((e.stats.hitCount : Rat) / (e.stats.memoryAccesses : Rat)) * 100|
        ≤ 1 / 20) := by
  constructor
  · intro h
    simp [Engine.getStats, h]
  · intro h
    have hpos : e.stats.memoryAccesses > 0 := h
    simp only [Engine.getStats, if_pos hpos]
    set x : Rat :=
      (e.stats.hitCount : Rat) / (e.stats.memoryAccesses : Rat) * 100 with hx
    unfold jsToFixed1
    have hr : |x * 10 - (round (x * 10) : Rat)| ≤ 1 / 2 :=
      abs_sub_round (x * 10)
    have hneg : ((round (x * 10) : Int) : Rat) / 10 - x =
        -((x * 10 - (round (x * 10) : Rat)) / 10) := by
      ring
    rw [hneg, abs_neg, abs_div]
    have h10 : |(10 : Rat)| = 10 := by norm_num
    rw [h10]
    linarith

/-- Witness for C7 (amended): the zero-access branch at the fresh engine,
and the rounding bound at the concrete one-hit-one-fault state. -/
theorem C7_hitRatio_rounded_percentage_witness :
    (Engine.mkNew.stats.memoryAccesses = 0 ∧
     (Engine.mkNew.getStats 0).hitRatio = 0) ∧
    (0 < hitMissAfter.stats.memoryAccesses ∧
     |(hitMissAfter.getStats 0).hitRatio -
       ((hitMissAfter.stats.hitCount : Rat) /
         (hitMissAfter.stats.memoryAccesses : Rat)) * 100| ≤ 1 / 20) :=
  ⟨⟨by decide, (C7_hitRatio_rounded_percentage Engine.mkNew 0).1 (by decide)⟩,
   ⟨by decide, (C7_hitRatio_rounded_percentage hitMissAfter 0).2 (by decide)⟩⟩

/-- A successful `allocateBlock` appends one timestamped I/O event (pruned
by the window) and consumes the head of the free-block queue. -/
theorem allocateBlock_success_parts (s : SwapSystem) (p : Page)
    (now bid : Nat) (rest : List Nat) (h : s.freeBlocks = bid :: rest) :
    ((s.allocateBlock p now).2).ioOperations =
      ((s.ioOperations ++ [(now, true)]).filter
        (fun op => now - op.1 < s.ioWindow)) ∧
    ((s.allocateBlock p now).2).ioWindow = s.ioWindow ∧
    ((s.allocateBlock p now).2).freeBlocks = rest := by
  unfold SwapSystem.allocateBlock
  rw [h]
  simp [SwapSystem.recordIoEvent]

/-- The window filter keeps every event still inside the window. -/
theorem filter_window_keep (l : List (Nat × Bool)) (t w : Nat)
    (h : ∀ x ∈ l.map Prod.fst, t - x < w) :
    l.filter (fun op => t - op.1 < w) = l :=
  List.filter_eq_self.mpr
    (fun a ha => decide_eq_true (h a.1 (List.mem_map_of_mem Prod.fst ha)))

/-- The window filter drops every event that has aged out. -/
theorem filter_window_drop (l : List (Nat × Bool)) (t w : Nat)
    (h : ∀ x ∈ l.map Prod.fst, ¬(t - x < w)) :
    l.filter (fun op => t - op.1 < w) = [] :=
  List.filter_eq_nil_iff.mpr
    (fun a ha => by simp [h a.1 (List.mem_map_of_mem Prod.fst ha)])

/-- **C6.**  `getIORate` counts only the allocate/free events whose
timestamp lies within the 1000 ms sliding window and divides by the window
length in seconds: after exactly five swap-out allocations inside one
window (and no events before), the rate at `now` is 5.0; once the window
has fully elapsed past the last event, the rate is 0. -/
theorem C6_ioRate_sliding_window (pg : Page) (t1 t2 t3 t4 t5 now later : Nat)
    (h12 : t1 ≤ t2) (h23 : t2 ≤ t3) (h34 : t3 ≤ t4) (h45 : t4 ≤ t5)
    (h5n : t5 ≤ now) (hwin : now - t1 < 1000) (hgap : 1000 ≤ later - t5) :
    (fiveSwapOuts pg t1 t2 t3 t4 t5).getIoRate now = 5 ∧
    (fiveSwapOuts pg t1 t2 t3 t4 t5).getIoRate later = 0 := by
  simp only [fiveSwapOuts]
  set s1 := ((SwapSystem.mkNew 64).allocateBlock pg t1).2 with hs1
  set s2 := (s1.allocateBlock pg t2).2 with hs2
  set s3 := (s2.allocateBlock pg t3).2 with hs3
  set s4 := (s3.allocateBlock pg t4).2 with hs4
  set s5 := (s4.allocateBlock pg t5).2 with hs5
  have P1 := allocateBlock_success_parts (SwapSystem.mkNew 64) pg t1 0
    (List.drop 1 (List.range 64)) (by decide)
  have e1 : s1.ioOperations = [(t1, true)] := by
    rw [hs1, P1.1]
    rw [show (SwapSystem.mkNew 64).ioOperations = [] from rfl,
        show (SwapSystem.mkNew 64).ioWindow = 1000 from rfl,
        List.nil_append]
    exact filter_window_keep _ _ _ (by intro x hx; simp at hx; omega)
  have w1 : s1.ioWindow = 1000 := by rw [hs1]; exact P1.2.1.trans rfl
  have P2 := allocateBlock_success_parts s1 pg t2 1
    (List.drop 2 (List.range 64))
    (by rw [hs1]; rw [P1.2.2]; decide)
  have e2 : s2.ioOperations = [(t1, true), (t2, true)] := by
    rw [hs2, P2.1, e1, w1]
    exact filter_window_keep _ _ _ (by intro x hx; simp at hx; omega)
  have w2 : s2.ioWindow = 1000 := by rw [hs2]; exact P2.2.1.trans w1
  have P3 := allocateBlock_success_parts s2 pg t3 2
    (List.drop 3 (List.range 64))
    (by rw [hs2]; rw [P2.2.2]; decide)
  have e3 : s3.ioOperations = [(t1, true), (t2, true), (t3, true)] := by
    rw [hs3, P3.1, e2, w2]
    exact filter_window_keep _ _ _ (by intro x hx; simp at hx; omega)
  have w3 : s3.ioWindow = 1000 := by rw [hs3]; exact P3.2.1.trans w2
  have P4 := allocateBlock_success_parts s3 pg t4 3
    (List.drop 4 (List.range 64))
    (by rw [hs3]; rw [P3.2.2]; decide)
  have e4 : s4.ioOperations =
      [(t1, true), (t2, true), (t3, true), (t4, true)] := by
    rw [hs4, P4.1, e3, w3]
    exact filter_window_keep _ _ _ (by intro x hx; simp at hx; omega)
  have w4 : s4.ioWindow = 1000 := by rw [hs4]; exact P4.2.1.trans w3
  have P5 := allocateBlock_success_parts s4 pg t5 4
    (List.drop 5 (List.range 64))
    (by rw [hs4]; rw [P4.2.2]; decide)
  have e5 : s5.ioOperations =
      [(t1, true), (t2, true), (t3, true), (t4, true), (t5, true)] := by
    rw [hs5, P5.1, e4, w4]
    exact filter_window_keep _ _ _ (by intro x hx; simp at hx; omega)
  have w5 : s5.ioWindow = 1000 := by rw [hs5]; exact P5.2.1.trans w4
  constructor
  · simp only [SwapSystem.getIoRate]
    rw [e5, w5,
        filter_window_keep _ _ _ (by intro x hx; simp at hx; omega)]
    norm_num
  · simp only [SwapSystem.getIoRate]
    rw [e5, w5,
        filter_window_drop _ _ _ (by intro x hx; simp at hx; omega)]
    norm_num

/-- Witness for C6 at events recorded at 0, 100, 200, 300, 400 ms, read at
400 ms and again at 1400 ms. -/
theorem C6_ioRate_sliding_window_witness :
    (0 : Nat) ≤ 100 ∧ (100 : Nat) ≤ 200 ∧ (200 : Nat) ≤ 300 ∧
    (300 : Nat) ≤ 400 ∧ (400 : Nat) ≤ 400 ∧ (400 - 0 : Nat) < 1000 ∧
    (1000 : Nat) ≤ 1400 - 400 ∧
    ((fiveSwapOuts (Page.mkNew 0 0) 0 100 200 300 400).getIoRate 400 = 5 ∧
     (fiveSwapOuts (Page.mkNew 0 0) 0 100 200 300 400).getIoRate 1400 = 0) :=
  ⟨by decide, by decide, by decide, by decide, by decide, by decide,
   by decide,
   C6_ioRate_sliding_window (Page.mkNew 0 0) 0 100 200 300 400 400 1400
     (by decide) (by decide) (by decide) (by decide) (by decide) (by decide)
     (by decide)⟩

/-- **C5.**  Thrashing detection is edge-triggered: running
`checkThrashing` over any stream of observations (swap-system state and
instant per check), the flag after the run equals `ioRate ≥ threshold` of
the last check (initial flag if none), and the emitted `onThrashingChange`
notifications are exactly one per boolean state change — none while the
state stays the same, however many checks run. -/
theorem C5_thrashing_edge_triggered (e : Engine)
    (stream : List (SwapSystem × Nat)) :
    (runThrashChecks e stream).1.isThrashing =
      (stream.map (fun sn =>
        decide (e.thrashingThreshold ≤ sn.1.getIoRate sn.2))).getLastD
        e.isThrashing ∧
    (runThrashChecks e stream).2 =
      transitionEvents e.isThrashing
        (stream.map (fun sn =>
          decide (e.thrashingThreshold ≤ sn.1.getIoRate sn.2))) := by
  induction stream generalizing e with
  | nil => exact ⟨rfl, rfl⟩
  | cons sn rest ih =>
    have step :
        ({ e with swapSystem := sn.1 }).checkThrashing sn.2 =
        ({ e with swapSystem := sn.1
                  isThrashing :=
                    decide (e.thrashingThreshold ≤ sn.1.getIoRate sn.2) },
         if e.isThrashing !=
            decide (e.thrashingThreshold ≤ sn.1.getIoRate sn.2) then
           [SimEvent.thrashingChange
             (decide (e.thrashingThreshold ≤ sn.1.getIoRate sn.2))]
         else []) := rfl
    have h := ih { e with swapSystem := sn.1
                          isThrashing :=
                            decide (e.thrashingThreshold ≤
                              sn.1.getIoRate sn.2) }
    simp only [runThrashChecks, step, List.map_cons, transitionEvents,
      List.getLastD_cons] at h ⊢
    exact ⟨h.1, by rw [h.2]⟩

/-- The `FIFO.selectVictim` scan (strict `<` against the running best)
returns the leftmost occurrence of the minimal `loadTime`: the start page
consed onto the scanned list splits into a strictly-younger prefix, the
result, and a no-older suffix. -/
theorem fifoFold_leftmost_min (l : List Page) :
    ∀ p : Page, ∃ pre suf,
      p :: l = pre ++ (l.foldl fifoOlder p) :: suf ∧
      (∀ q ∈ pre, (l.foldl fifoOlder p).loadTime < q.loadTime) ∧
      (∀ q ∈ suf, (l.foldl fifoOlder p).loadTime ≤ q.loadTime) := by
  induction l with
  | nil => exact fun p => ⟨[], [], rfl, by simp, by simp⟩
  | cons q rest ih =>
    intro p
    set a := fifoOlder p q with ha
    obtain ⟨pre, suf, hdec, hpre, hsuf⟩ := ih a
    set r := rest.foldl fifoOlder a with hrr
    have hstep : (q :: rest).foldl fifoOlder p = r := by
      rw [hrr, ha, List.foldl_cons]
    have hall : ∀ x ∈ a :: rest, r.loadTime ≤ x.loadTime := by
      intro x hx
      rw [hdec] at hx
      rcases List.mem_append.mp hx with hx | hx
      · exact le_of_lt (hpre x hx)
      · rcases List.mem_cons.mp hx with hx | hx
        · rw [hx]
        · exact hsuf x hx
    have hra : r.loadTime ≤ a.loadTime := hall a (List.mem_cons_self a rest)
    rw [hstep]
    by_cases hq : q.loadTime < p.loadTime
    · have hfe : a = q := by rw [ha]; exact if_pos hq
      refine ⟨p :: pre, suf, ?_, ?_, hsuf⟩
      · rw [List.cons_append, ← hdec, hfe]
      · intro x hx
        rcases List.mem_cons.mp hx with hx | hx
        · rw [hx]
          calc r.loadTime ≤ a.loadTime := hra
            _ = q.loadTime := by rw [hfe]
            _ < p.loadTime := hq
        · exact hpre x hx
    · have hfe : a = p := by rw [ha]; exact if_neg hq
      have hpq : p.loadTime ≤ q.loadTime := le_of_not_lt hq
      rw [hfe] at hdec
      match pre, hdec, hpre with
      | [], hdec, hpre =>
        simp only [List.nil_append] at hdec
        injection hdec with h1 h2
        refine ⟨[], q :: rest, ?_, by simp, ?_⟩
        · rw [List.nil_append, h1]
        · intro x hx
          rcases List.mem_cons.mp hx with hx | hx
          · rw [hx]
            calc r.loadTime ≤ a.loadTime := hra
              _ = p.loadTime := by rw [hfe]
              _ ≤ q.loadTime := hpq
          · exact hall x (List.mem_cons_of_mem a hx)
      | x :: pre', hdec, hpre =>
        simp only [List.cons_append] at hdec
        injection hdec with h1 h2
        have hrp : r.loadTime < p.loadTime := by
          rw [h1]
          exact hpre x (List.mem_cons_self x pre')
        refine ⟨p :: q :: pre', suf, ?_, ?_, hsuf⟩
        · rw [List.cons_append, List.cons_append, h2]
        · intro y hy
          rcases List.mem_cons.mp hy with hy | hy
          · rw [hy]; exact hrp
          rcases List.mem_cons.mp hy with hy | hy
          · rw [hy]; exact lt_of_lt_of_le hrp hpq
          · exact hpre y (List.mem_cons_of_mem x hy)

/-- **C3 (counterexample).**  The claim says `loadTime` ties are broken by
ascending page id.  For two pages with equal minimal `loadTime` 0 listed as
id 5 then id 2, the scan returns the id-5 page (the earlier list element),
not the id-2 page the claim demands. -/
theorem C3_fifo_tie_not_by_id_counterexample :
    pgIdFive.loadTime = 0 ∧ pgIdTwo.loadTime = 0 ∧
    pgIdFive.id = 5 ∧ pgIdTwo.id = 2 ∧
    FIFO.selectVictim [pgIdFive, pgIdTwo] = Option.some pgIdFive ∧
    FIFO.selectVictim [pgIdFive, pgIdTwo] ≠ Option.some pgIdTwo := by
  decide

/-- **C3 (amended).**  `FIFO.selectVictim` returns `none` exactly on the
empty list; on a non-empty list it returns the first list element among
those with minimal `loadTime` (ties broken by list position, not by page
id): the list splits into a strictly-younger prefix, the returned victim,
and a no-older suffix. -/
theorem C3_fifo_selects_first_minimal_loadTime (l : List Page) :
    (l = [] → FIFO.selectVictim l = Option.none) ∧
    (l ≠ [] → ∃ v pre suf,
      FIFO.selectVictim l = Option.some v ∧
      l = pre ++ v :: suf ∧
      (∀ q ∈ pre, v.loadTime < q.loadTime) ∧
      (∀ q ∈ suf, v.loadTime ≤ q.loadTime)) := by
  constructor
  · intro h; subst h; rfl
  · intro h
    match l with
    | [] => exact absurd rfl h
    | p :: rest =>
      obtain ⟨pre, suf, hdec, hpre, hsuf⟩ := fifoFold_leftmost_min rest p
      exact ⟨rest.foldl fifoOlder p, pre, suf, rfl, hdec, hpre, hsuf⟩

/-- Witness for C3 (amended) at the concrete tied list. -/
theorem C3_fifo_selects_first_minimal_loadTime_witness :
    ([pgIdFive, pgIdTwo] : List Page) ≠ [] ∧
    (∃ v pre suf,
      FIFO.selectVictim [pgIdFive, pgIdTwo] = Option.some v ∧
      [pgIdFive, pgIdTwo] = pre ++ v :: suf ∧
      (∀ q ∈ pre, v.loadTime < q.loadTime) ∧
      (∀ q ∈ suf, v.loadTime ≤ q.loadTime)) :=
  ⟨by decide,
   (C3_fifo_selects_first_minimal_loadTime [pgIdFive, pgIdTwo]).2
     (by decide)⟩

/-- `addToFront` always equals unlink-then-cons: if the id is indexed it is
`moveToFront`, otherwise `erase` is the identity. -/
theorem addToFront_eq_cons_erase (order : List Nat) (pid : Nat) :
    LRU.addToFront order pid = pid :: order.erase pid := by
  unfold LRU.addToFront LRU.moveToFront
  by_cases h : order.contains pid
  · rw [if_pos h]
  · rw [if_neg h, List.erase_of_not_mem]
    intro hmem
    exact h (List.elem_eq_true_of_mem hmem)

/-- Splicing a page to the head while stamping its `lastAccessTime` with a
clock no earlier than every tracked page preserves the LRU invariant. -/
theorem lruInv_front (tr : LRUTracker) (pages' : Nat → Page)
    (pid c t : Nat) (hinv : lruInv tr c) (hct : c ≤ t)
    (hagree : ∀ q, q ≠ pid → pages' q = tr.pages q)
    (hid' : ∀ q, (pages' q).id = q)
    (htime' : (pages' pid).lastAccessTime = t) :
    lruInv { order := pid :: tr.order.erase pid, pages := pages' } t := by
  obtain ⟨hid, hnd, htimes, hpw⟩ := hinv
  have hmemer : ∀ q ∈ tr.order.erase pid, q ≠ pid ∧ q ∈ tr.order :=
    fun q hq => (hnd.mem_erase_iff.mp hq)
  refine ⟨hid', ?_, ?_, ?_⟩
  · exact List.nodup_cons.mpr
      ⟨fun hmem => (hmemer pid hmem).1 rfl, hnd.erase pid⟩
  · intro q hq
    show (pages' q).lastAccessTime ≤ t
    rcases List.mem_cons.mp hq with hq | hq
    · rw [hq, htime']
    · obtain ⟨hqne, hqmem⟩ := hmemer q hq
      rw [hagree q hqne]
      exact le_trans (htimes q hqmem) hct
  · show List.Pairwise
      (fun a b => (pages' b).lastAccessTime ≤ (pages' a).lastAccessTime)
      (pid :: tr.order.erase pid)
    refine List.pairwise_cons.mpr ⟨?_, ?_⟩
    · intro b hb
      obtain ⟨hbne, hbmem⟩ := hmemer b hb
      rw [hagree b hbne, htime']
      exact le_trans (htimes b hbmem) hct
    · have hsub : List.Sublist (tr.order.erase pid) tr.order :=
        List.erase_sublist _ _
      have hpw' := hpw.sublist hsub
      refine hpw'.imp_of_mem ?_
      intro a b ha hb hab
      rw [hagree a (hmemer a ha).1, hagree b (hmemer b hb).1]
      exact hab

/-- `moveToRAM` + `LRU.onPageLoad` preserves the invariant. -/
theorem lruInv_track_load (tr : LRUTracker) (c pid fid t : Nat)
    (hinv : lruInv tr c) (hct : c ≤ t) :
    lruInv (lruTrack tr (LRUEvent.load pid fid t)) t := by
  have h := lruInv_front tr
    (fun q => if q = pid then (tr.pages pid).moveToRAM fid t else tr.pages q)
    pid c t hinv hct
    (fun q hq => by simp [hq])
    (fun q => by
      by_cases hq : q = pid
      · simp [hq, Page.moveToRAM, hinv.1 pid]
      · simp [hq, hinv.1 q])
    (by simp [Page.moveToRAM])
  simpa [lruTrack, addToFront_eq_cons_erase] using h

/-- `LRU.onPageAccess` (`page.access` + `moveToFront`) preserves the
invariant. -/
theorem lruInv_track_access (tr : LRUTracker) (c pid t : Nat)
    (hinv : lruInv tr c) (hct : c ≤ t) :
    lruInv (lruTrack tr (LRUEvent.access pid t)) t := by
  have h := lruInv_front tr
    (fun q => if q = pid then (tr.pages pid).access t else tr.pages q)
    pid c t hinv hct
    (fun q hq => by simp [hq])
    (fun q => by
      by_cases hq : q = pid
      · simp [hq, Page.access, hinv.1 pid]
      · simp [hq, hinv.1 q])
    (by simp [Page.access])
  simpa [lruTrack, LRU.moveToFront] using h

/-- `LRU.onEvict` (unlink and drop from the index) preserves the
invariant. -/
theorem lruInv_track_evict (tr : LRUTracker) (c pid : Nat)
    (hinv : lruInv tr c) :
    lruInv (lruTrack tr (LRUEvent.evict pid)) c := by
  obtain ⟨hid, hnd, htimes, hpw⟩ := hinv
  have horder : (lruTrack tr (LRUEvent.evict pid)).order =
      tr.order.erase pid := by
    simp [lruTrack, LRU.onEvict, hid pid]
  refine ⟨hid, ?_, ?_, ?_⟩
  · rw [horder]; exact hnd.erase pid
  · intro q hq
    rw [horder] at hq
    exact htimes q (List.mem_of_mem_erase hq)
  · show List.Pairwise _ (lruTrack tr (LRUEvent.evict pid)).order
    rw [horder]
    exact hpw.sublist (List.erase_sublist _ _)

/-- Any chronological contract-call sequence leaves the tracker satisfying
the LRU invariant for some clock. -/
theorem lruInv_run (es : List LRUEvent) :
    ∀ c tr, lruInv tr c → chronologicalFrom c es = true →
      ∃ c2, lruInv (lruRun tr es) c2 := by
  induction es with
  | nil => exact fun c tr h _ => ⟨c, h⟩
  | cons ev rest ih =>
    intro c tr hinv hch
    have hstep : lruRun tr (ev :: rest) = lruRun (lruTrack tr ev) rest := rfl
    rw [hstep]
    cases ev with
    | load pid fid t =>
      simp only [chronologicalFrom, Bool.and_eq_true, decide_eq_true_eq]
        at hch
      exact ih t _ (lruInv_track_load tr c pid fid t hinv hch.1) hch.2
    | access pid t =>
      simp only [chronologicalFrom, Bool.and_eq_true, decide_eq_true_eq]
        at hch
      exact ih t _ (lruInv_track_access tr c pid t hinv hch.1) hch.2
    | evict pid =>
      simp only [chronologicalFrom] at hch
      exact ih c _ (lruInv_track_evict tr c pid hinv) hch

/-- **C4.**  After any chronological sequence of
`onPageLoad`/`onPageAccess`/`onEvict` contract calls (under the contract,
the tracked set is exactly the resident set), if the recency list is
non-empty then `LRU.selectVictim` returns the page of the list's tail, and
that page's `lastAccessTime` is minimal among all tracked (resident)
pages. -/
theorem C4_lru_victim_is_tail_with_min_lastAccess (es : List LRUEvent)
    (ramPages : List Page)
    (hch : chronologicalFrom 0 es = true)
    (hne : (lruRun lruInit es).order ≠ []) :
    ∃ tailId,
      (lruRun lruInit es).order.getLast? = Option.some tailId ∧
      LRU.selectVictim (lruRun lruInit es).order
        (fun pid => Option.some ((lruRun lruInit es).pages pid)) ramPages =
        Option.some ((lruRun lruInit es).pages tailId) ∧
      ∀ q ∈ (lruRun lruInit es).order,
        ((lruRun lruInit es).pages tailId).lastAccessTime ≤
        ((lruRun lruInit es).pages q).lastAccessTime := by
  have hinv0 : lruInv lruInit 0 := by
    refine ⟨fun pid => rfl, List.nodup_nil, ?_, List.Pairwise.nil⟩
    intro pid hpid
    exact absurd hpid (List.not_mem_nil pid)
  obtain ⟨c2, hinv⟩ := lruInv_run es 0 lruInit hinv0 hch
  obtain ⟨hid, hnd, htimes, hpw⟩ := hinv
  rcases List.eq_nil_or_concat (lruRun lruInit es).order with h | ⟨l2, a, h⟩
  · exact absurd h hne
  · rw [List.concat_eq_append] at h
    refine ⟨a, ?_, ?_, ?_⟩
    · rw [h]; exact List.getLast?_concat _
    · unfold LRU.selectVictim
      rw [h, List.getLast?_concat]
    · intro q hq
      rw [h] at hq hpw
      have hcross := (List.pairwise_append.mp hpw).2.2
      rcases List.mem_append.mp hq with hq | hq
      · exact hcross q hq a (List.mem_singleton_self a)
      · rw [List.mem_singleton.mp hq]

/-- Witness for C4 at the concrete sample sequence
load 1, load 2, access 1, load 3, evict 2 (recency list [3, 1]). -/
theorem C4_lru_victim_is_tail_with_min_lastAccess_witness :
    chronologicalFrom 0 lruSampleEvents = true ∧
    (lruRun lruInit lruSampleEvents).order ≠ [] ∧
    (∃ tailId,
      (lruRun lruInit lruSampleEvents).order.getLast? =
        Option.some tailId ∧
      LRU.selectVictim (lruRun lruInit lruSampleEvents).order
        (fun pid => Option.some ((lruRun lruInit lruSampleEvents).pages pid))
        [] =
        Option.some ((lruRun lruInit lruSampleEvents).pages tailId) ∧
      ∀ q ∈ (lruRun lruInit lruSampleEvents).order,
        ((lruRun lruInit lruSampleEvents).pages tailId).lastAccessTime ≤
        ((lruRun lruInit lruSampleEvents).pages q).lastAccessTime) :=
  ⟨by decide, by decide,
   C4_lru_victim_is_tail_with_min_lastAccess lruSampleEvents []
     (by decide) (by decide)⟩
